import Mathlib

/-!
# Verification of the OmegaCalculator core

Shallow embedding of the calculator's core (operator catalog, overload
resolution, tokenizer, infix-to-postfix formatter, postfix solver) from
`src/src/calculatorLogic/{operator,defined_operators,calc_utils,
expression_formatter,solver}.py`.

Modelling conventions:
* Python floats are modelled as exact rationals (`ℚ`).  Float rounding noise
  and `OverflowError`/`inf` behaviour are outside the embedding; the one
  place the difference is visible (`**` with a fractional exponent, whose
  float result is irrational) is marked by a dedicated error constructor.
* Python exceptions are modelled with `Except`: raised-and-not-caught
  exceptions are `.error` values of `PyExn`.
* Python `list`-based stacks are Lean lists whose head is the stack top.
* `for i in range(a, b)` loops are embedded as structural recursion on an
  explicit iteration counter equal to the number of remaining iterations,
  so that everything reduces definitionally.
-/

/-- The exceptions the Python code can raise (`calc_errors.py` plus the
built-in exceptions that escape uncaught).  `formattingError` carries the
message and token position (`-1` when not localizable), matching
`FormattingError.__init__`. -/
inductive PyExn where
  | formattingError (msg : String) (pos : ℤ)
  | calculationError (msg : String)
  | zeroDivisionError
  | valueError
  | indexError
  | keyError
  | attributeError
  | nonRational
deriving DecidableEq, Repr

deriving instance DecidableEq for Except

/-- The concrete operator classes implemented in `operator.py` (each Python
class instantiated once by `OmegaDefinedOperators.__init__`), plus
`sumDigits` for the `operator.SumDigits()` instance that `__init__` adds
(the class body itself is absent from the sources; see `sumDigitsOperate`). -/
inductive Op where
  | addition | subtraction | multiplication | division | power | modulo
  | maxOp | minOp | average | negation | factorial | brackets
  | minus | negativeSign | sumDigits
deriving DecidableEq, Repr

/-- Arity class of an operator: `BinaryOperator`, `UnaryOperator` with
`OperandPos.BEFORE`, `UnaryOperator` with `OperandPos.AFTER`, or
`ContainerOperator`. -/
inductive OpKind where
  | binary | unaryBefore | unaryAfter | container
deriving DecidableEq, Repr

/-- `_symbol` of each operator class (`operator.py`). -/
def opSymbol : Op → String
  | .addition => "+" | .subtraction => "-" | .multiplication => "*"
  | .division => "/" | .power => "^" | .modulo => "%"
  | .maxOp => "$" | .minOp => "&" | .average => "@"
  | .negation => "~" | .factorial => "!" | .brackets => "("
  | .minus => "-" | .negativeSign => "-" | .sumDigits => "#"

/-- `_priority` of each operator class (`operator.py`: Addition 1,
Subtraction 1, Multiplication 2, Division 2, Power 3, Modulo 5, Max 6,
Min 6, Average 6, Negation 7, Factorial 7, Brackets 999
(`HIGHEST_OPERATOR_PRIORITY`), Minus 4, NegativeSign 10; `sumDigits`
priority is modelled from the spec, see `sumDigitsPriority`). -/
def sumDigitsPriority : ℕ := 6

def opPriority : Op → ℕ
  | .addition => 1 | .subtraction => 1 | .multiplication => 2
  | .division => 2 | .power => 3 | .modulo => 5
  | .maxOp => 6 | .minOp => 6 | .average => 6
  | .negation => 7 | .factorial => 7 | .brackets => 999
  | .minus => 4 | .negativeSign => 10 | .sumDigits => sumDigitsPriority

/-- Which Python base class each operator instance belongs to
(`BinaryOperator` / `UnaryOperator` with its `_operand_pos` /
`ContainerOperator`).  `sumDigits` is postfix-unary (operand precedes the
operator) per the spec. -/
def opKind : Op → OpKind
  | .addition => .binary | .subtraction => .binary | .multiplication => .binary
  | .division => .binary | .power => .binary | .modulo => .binary
  | .maxOp => .binary | .minOp => .binary | .average => .binary
  | .negation => .unaryAfter | .factorial => .unaryBefore
  | .brackets => .container
  | .minus => .unaryAfter | .negativeSign => .unaryAfter
  | .sumDigits => .unaryBefore

/-- `_end_symbol` (only `ContainerOperator`s define it; `Brackets` uses
`)`). -/
def opEndSymbol : Op → String
  | .brackets => ")"
  | _ => ""

def isContainerB (o : Op) : Bool := opKind o == OpKind.container

def isBinaryB (o : Op) : Bool := opKind o == OpKind.binary

def isUnaryAfterB (o : Op) : Bool := opKind o == OpKind.unaryAfter

def isUnaryBeforeB (o : Op) : Bool := opKind o == OpKind.unaryBefore

/-! ## String utilities (`calc_utils.py`) -/

/-- `delete_whitespace`: `"".join(expression.split())`, i.e. remove every
whitespace character. -/
def deleteWs (s : String) : String :=
  String.mk (s.data.filter (fun c => !c.isWhitespace))

/-- Helper for `organize_whitespace`: Python `str.split()` (split on runs
of whitespace, dropping empty pieces); `acc` holds the current word
reversed. -/
def pySplitAux : List Char → List Char → List (List Char)
  | [], acc => if acc.isEmpty then [] else [acc.reverse]
  | c :: cs, acc =>
    if c.isWhitespace then
      if acc.isEmpty then pySplitAux cs [] else acc.reverse :: pySplitAux cs []
    else pySplitAux cs (c :: acc)

/-- `organize_whitespace`: `" ".join(expression.split())`. -/
def organizeWs (s : String) : String :=
  String.intercalate " " ((pySplitAux s.data []).map String.mk)

/-- Remove the first `.` from a character list (`value.replace(".", "", 1)`). -/
def removeFirstDot : List Char → List Char
  | [] => []
  | c :: cs => if c = '.' then cs else c :: removeFirstDot cs

/-- `is_float_str`: delete whitespace, drop one decimal point, and test
that the remainder is a nonempty run of digits (`str.isdigit`, restricted
to ASCII digits, which is all the tokenizer can produce). -/
def isFloatStr (s : String) : Bool :=
  let cleaned := removeFirstDot (deleteWs s).data
  !cleaned.isEmpty && cleaned.all Char.isDigit

/-! ## Reducible rational arithmetic

Batteries marks the field operations of `ℚ` `@[irreducible]`, which stops
`decide`/`rfl` from evaluating them.  The embedding therefore computes
with its own definitionally-reducing implementations built on
`Rat.divInt`; bridge lemmas in the theorem section identify them with the
standard operations for the quantified theorems. -/

def qadd (a b : ℚ) : ℚ :=
  Rat.divInt (a.num * b.den + b.num * a.den) (a.den * b.den)

def qsub (a b : ℚ) : ℚ :=
  Rat.divInt (a.num * b.den - b.num * a.den) (a.den * b.den)

def qmul (a b : ℚ) : ℚ := Rat.divInt (a.num * b.num) (a.den * b.den)

def qinv (a : ℚ) : ℚ := Rat.divInt a.den a.num

def qdiv (a b : ℚ) : ℚ := qmul a (qinv b)

def qpowNat (a : ℚ) : ℕ → ℚ
  | 0 => 1
  | n + 1 => qmul (qpowNat a n) a

def qzpow (a : ℚ) (e : ℤ) : ℚ :=
  if 0 ≤ e then qpowNat a e.toNat else qinv (qpowNat a (-e).toNat)

/-- Numeric value of a digit run. -/
def digitsVal (ds : List Char) : ℕ :=
  ds.foldl (fun a c => a * 10 + (c.toNat - 48)) 0

/-- Python `float(s)` on the token grammar reachable here (digits and at
most one decimal point, with optional surrounding whitespace); `none`
models the `ValueError` branch of `format_expression`. -/
def pyFloat (s : String) : Option ℚ :=
  let cs := ((s.data.dropWhile Char.isWhitespace).reverse.dropWhile
    Char.isWhitespace).reverse
  let ip := cs.takeWhile (fun c => c ≠ '.')
  let rest := cs.drop ip.length
  if ip.all Char.isDigit then
    match rest with
    | [] => if ip.isEmpty then none else some (digitsVal ip)
    | _ :: fp =>
      if fp.all Char.isDigit && !(ip.isEmpty && fp.isEmpty) then
        some (qadd (digitsVal ip : ℚ)
          (qdiv (digitsVal fp : ℚ) (qpowNat 10 fp.length)))
      else none
  else none

/-! ## The operator dictionary (`BaseDefinedOperators`, `defined_operators.py`)

`_op_dict` is a **class attribute** of `BaseDefinedOperators`: the same
dictionary object is shared by every instance, and
`OmegaDefinedOperators.__init__` mutates it in place through `_add_op`.
We model the dictionary as an insertion-ordered association list and
`__init__` as a fold over the operator list starting from whatever the
shared dictionary already contains. -/

/-- A dictionary entry: either a single `Operator` or, after `_add_op` saw
the same symbol twice, a Python list of overloads. -/
inductive Entry where
  | one (o : Op)
  | many (l : List Op)
deriving DecidableEq, Repr

abbrev OpDict : Type := List (String × Entry)

/-- Dictionary membership / `dict[key]` lookup. -/
def dictLookup : OpDict → String → Option Entry
  | [], _ => none
  | (k, v) :: rest, s => if k = s then some v else dictLookup rest s

/-- In-place update of the entry under an existing key. -/
def dictUpdate : OpDict → String → Entry → OpDict
  | [], _, _ => []
  | (k, v) :: rest, s, e =>
    if k = s then (k, e) :: rest else (k, v) :: dictUpdate rest s e

/-- `BaseDefinedOperators._add_op`: an already-present symbol turns its
entry into a list (or appends to the list); a new symbol maps to the
operator itself. -/
def addOp (d : OpDict) (o : Op) : OpDict :=
  match dictLookup d (opSymbol o) with
  | some (.one existing) => dictUpdate d (opSymbol o) (.many [existing, o])
  | some (.many l) => dictUpdate d (opSymbol o) (.many (l ++ [o]))
  | none => d ++ [(opSymbol o, .one o)]

/-- The operator list added by `OmegaDefinedOperators.__init__`
(`defined_operators.py`), in order. -/
def omegaOps : List Op :=
  [.addition, .subtraction, .multiplication, .division, .power, .modulo,
   .maxOp, .minOp, .average, .negation, .factorial, .brackets,
   .minus, .negativeSign, .sumDigits]

/-- `OmegaDefinedOperators.__init__`, acting on the shared class-level
dictionary `d` (empty only the first time an instance is constructed). -/
def buildOmega (d : OpDict) : OpDict := omegaOps.foldl addOp d

/-- The catalog as seen after the first (intended: only) construction. -/
def omegaDict : OpDict := buildOmega []

/-- `get_symbols` (the dictionary's keys). -/
def getSymbols (d : OpDict) : List String := d.map Prod.fst

/-- `get_end_symbols`: end symbols of the values that are single
`ContainerOperator`s (a list value never satisfies `isinstance`). -/
def getEndSymbols (d : OpDict) : List String :=
  d.filterMap (fun p =>
    match p.2 with
    | .one o => if isContainerB o then some (opEndSymbol o) else none
    | .many _ => none)

/-- `is_operator`: the token at `position` is a dictionary key.  (All call
sites use in-range positions; an out-of-range index is read as `""`,
which is never a key.) -/
def isOperator (d : OpDict) (expr : List String) (pos : ℕ) : Bool :=
  (dictLookup d (expr.getD pos "")).isSome

/-- `_get_overloaded_by_class`: first element of the overload list passing
the `isinstance` test, else the list's first element; `none` models the
crash on a non-list or empty entry (never reachable through `_add_op`). -/
def getOverloadedByClass (d : OpDict) (sym : String) (p : Op → Bool) :
    Option Op :=
  match dictLookup d sym with
  | some (.many l) =>
    match l.find? p with
    | some o => some o
    | none => l.head?
  | _ => none

/-- The body of `OmegaDefinedOperators.resolve_overloads` for `'-'` after
the previous position's `get_operator` result is known (`prev = none`
models the caught `ValueError`: the previous token was not an operator). -/
def resolvePrev (d : OpDict) (prev : Option Entry) : Option Op :=
  match prev with
  | none => getOverloadedByClass d "-" (· == Op.subtraction)
  | some pe =>
    if (match pe with | .one o => isContainerB o | .many _ => false)
        || (pe == Entry.one Op.minus) then
      getOverloadedByClass d "-" (· == Op.minus)
    else if (match pe with | .one o => isBinaryB o || isUnaryAfterB o
                           | .many _ => false) then
      getOverloadedByClass d "-" (· == Op.negativeSign)
    else getOverloadedByClass d "-" (· == Op.subtraction)

/-- `get_operator` fused with `resolve_overloads`
(`defined_operators.py`): a missing key is the raised `ValueError`
(`none`); a single entry is returned as is; a list entry for `'-'` runs
the overload-resolution policy (which recursively resolves the previous
position); a list entry for any other symbol is returned raw (the
`case _` branch returns `self._op_dict[op_symbol]`, the list itself). -/
def getOperatorAt (d : OpDict) (expr : List String) : ℕ → Option Entry
  | 0 =>
    match dictLookup d (expr.getD 0 "") with
    | none => none
    | some (.one o) => some (.one o)
    | some (.many l) =>
      if expr.getD 0 "" = "-" then
        (getOverloadedByClass d "-" (· == Op.minus)).map .one
      else some (.many l)
  | p + 1 =>
    match dictLookup d (expr.getD (p + 1) "") with
    | none => none
    | some (.one o) => some (.one o)
    | some (.many l) =>
      if expr.getD (p + 1) "" = "-" then
        (resolvePrev d (getOperatorAt d expr p)).map .one
      else some (.many l)

/-! ## Positional legality checks (`check_position` methods, `operator.py`) -/

/-- The catalog's symbol list, fixed at formatter construction. -/
def omegaSymbols : List String := getSymbols omegaDict

/-- The catalog's container end-symbol list. -/
def omegaEndSymbols : List String := getEndSymbols omegaDict

/-- `UnaryOperator.check_position`, `OperandPos.AFTER` branch: there must
be a token after the operator and it must not be a container end symbol.
The first raise passes no position, so it reports `-1`. -/
def baseUnaryAfterCheck (sym : String) (expr : List String) (pos : ℕ) :
    Except PyExn Unit :=
  if ¬ pos + 1 < expr.length then
    .error (.formattingError ("Error: Missing a value after " ++ sym) (-1))
  else if expr.getD (pos + 1) "" ∈ omegaEndSymbols then
    .error (.formattingError ("Error: Missing a value after " ++ sym) pos)
  else .ok ()

/-- `UnaryOperator.check_position`, `OperandPos.BEFORE` branch: position 0
is illegal; a preceding operator is legal only if it is itself a
before-unary operator. -/
def baseUnaryBeforeCheck (sym : String) (expr : List String) (pos : ℕ) :
    Except PyExn Unit :=
  if pos < 1 then
    .error (.formattingError ("Error: Missing a value before " ++ sym) pos)
  else if isOperator omegaDict expr (pos - 1) then
    match getOperatorAt omegaDict expr (pos - 1) with
    | some (.one prev) =>
      if opKind prev = OpKind.unaryBefore then .ok ()
      else if opKind prev = OpKind.container then
        .error (.formattingError ("Error: Missing a value before " ++ sym) pos)
      else
        .error (.formattingError ("Error: " ++ sym ++ " cannot come after an operator") pos)
    | some (.many _) =>
      .error (.formattingError ("Error: " ++ sym ++ " cannot come after an operator") pos)
    | none => .error .valueError
  else .ok ()

/-- `BinaryOperator.check_position`: like the before-unary check, but when
the previous token is a before-unary operator the method returns at once,
skipping the trailing-position checks; otherwise the operator must also
not sit at the end of the expression or directly before an end symbol. -/
def binaryCheck (sym : String) (expr : List String) (pos : ℕ) :
    Except PyExn Unit :=
  if pos < 1 then
    .error (.formattingError ("Error: Missing a value before " ++ sym) pos)
  else if isOperator omegaDict expr (pos - 1) then
    match getOperatorAt omegaDict expr (pos - 1) with
    | some (.one prev) =>
      if opKind prev = OpKind.unaryBefore then .ok ()
      else if opKind prev = OpKind.container then
        .error (.formattingError ("Error: Missing a value before " ++ sym) pos)
      else
        .error (.formattingError ("Error: " ++ sym ++ " cannot come after an operator") pos)
    | some (.many _) =>
      .error (.formattingError ("Error: " ++ sym ++ " cannot come after an operator") pos)
    | none => .error .valueError
  else if ¬ pos + 1 < expr.length then
    .error (.formattingError ("Error: Missing a value after " ++ sym) (-1))
  else if expr.getD (pos + 1) "" ∈ omegaEndSymbols then
    .error (.formattingError ("Error: Missing a value after " ++ sym) pos)
  else .ok ()

/-- The scan of `Negation.check_position`: walk right from the operator;
a numeric token succeeds, any non-`-` token fails, and running off the
end fails.  `iters` is the remaining iteration count of
`range(position + 1, len(expression))`. -/
def negScan (sym : String) (startPos : ℕ) (expr : List String) :
    ℕ → ℕ → Except PyExn Unit
  | 0, _ =>
    .error (.formattingError ("Error: Missing a value after " ++ sym) startPos)
  | iters + 1, i =>
    let tok := expr.getD i ""
    if isFloatStr tok then .ok ()
    else if tok ≠ "-" then
      .error (.formattingError ("Error: " ++ sym ++ " cannot come before " ++ tok) i)
    else negScan sym startPos expr iters (i + 1)

/-- The test `defined_ops.is_operator(expression, i) and
isinstance(defined_ops.get_operator(expression, i), ContainerOperator)`
of `Minus.check_position` / `NegativeSign.check_position`. -/
def resolvesToContainer (expr : List String) (i : ℕ) : Bool :=
  isOperator omegaDict expr i
    && (match getOperatorAt omegaDict expr i with
        | some (.one o) => isContainerB o
        | _ => false)

/-- The scan of `Minus.check_position` and `NegativeSign.check_position`:
identical to `negScan` except that a token resolving to a
`ContainerOperator` also succeeds. -/
def minusScan (sym : String) (startPos : ℕ) (expr : List String) :
    ℕ → ℕ → Except PyExn Unit
  | 0, _ =>
    .error (.formattingError ("Error: Missing a value after " ++ sym) startPos)
  | iters + 1, i =>
    let tok := expr.getD i ""
    if isFloatStr tok || resolvesToContainer expr i then .ok ()
    else if tok ≠ "-" then
      .error (.formattingError ("Error: " ++ sym ++ " cannot come before " ++ tok) i)
    else minusScan sym startPos expr iters (i + 1)

/-- Dispatch of `check_position` over the operator's class, as the
formatter calls it (`format_expression` only checks unary and binary
operators). -/
def checkPosition (o : Op) (expr : List String) (pos : ℕ) :
    Except PyExn Unit :=
  match opKind o with
  | .binary => binaryCheck (opSymbol o) expr pos
  | .unaryBefore => baseUnaryBeforeCheck (opSymbol o) expr pos
  | .unaryAfter =>
    match baseUnaryAfterCheck (opSymbol o) expr pos with
    | .error e => .error e
    | .ok _ =>
      if o = Op.negation then
        negScan (opSymbol o) pos expr (expr.length - (pos + 1)) (pos + 1)
      else if o = Op.minus ∨ o = Op.negativeSign then
        minusScan (opSymbol o) pos expr (expr.length - (pos + 1)) (pos + 1)
      else .ok ()
  | .container => .ok ()

/-! ## Tokenizer (`InfixToPostfixFormatter.extract_symbols`) -/

/-- The character-scanning loop of `extract_symbols`, after
`organize_whitespace`; `temp` is the pending buffer, `acc` the emitted
token list. -/
def extractLoop : List Char → String → List String → List String
  | [], temp, acc => if temp ≠ "" then acc ++ [temp] else acc
  | c :: cs, temp, acc =>
    if c.isWhitespace then
      if temp ≠ "" ∧ ¬ isFloatStr temp then extractLoop cs "" (acc ++ [temp])
      else extractLoop cs temp acc
    else if temp.push c ∈ omegaSymbols ∨ temp.push c ∈ omegaEndSymbols then
      extractLoop cs "" (acc ++ [temp.push c])
    else if String.mk [c] ∈ omegaSymbols ∨ String.mk [c] ∈ omegaEndSymbols then
      extractLoop cs "" ((if temp ≠ "" then acc ++ [temp] else acc) ++ [String.mk [c]])
    else if isFloatStr temp ∧ ¬ isFloatStr (temp.push c) then
      extractLoop cs (String.mk [c]) (acc ++ [temp])
    else extractLoop cs (temp.push c) acc

/-- `extract_symbols`. -/
def extractSymbols (s : String) : List String :=
  extractLoop (organizeWs s).data "" []

/-! ## Formatter (`InfixToPostfixFormatter.format_expression`) -/

/-- A postfix item: the Python `postfix_expression` holds floats and
`Operator` instances; `other` stands for any value of another type (the
solver's unrecognised-item branch). -/
inductive Item where
  | num (q : ℚ)
  | op (o : Op)
  | other (s : String)
deriving DecidableEq, Repr

/-- The formatter's per-call state: the regular operator stack, the
left-operator stack (heads are the tops), the output list, and the
`opened_containers` count dictionary. -/
structure FmtSt where
  opStack : List Op
  leftOps : List Op
  out : List Item
  opened : List (Op × ℕ)
deriving DecidableEq, Repr

/-- The first `while` of the else-branch of `insert_operator`: while the
regular stack's top is a non-container of priority at least the incoming
operator's, emit the left-operator top instead whenever it dominates,
else emit the regular top.  Each iteration pops one element from one of
the two stacks, so the combined length bounds the iteration count
(`iters` starts at that bound). -/
def drainHigher (p : ℕ) : ℕ → List Op → List Op → List Item →
    List Op × List Op × List Item
  | 0, opst, left, out => (opst, left, out)
  | iters + 1, opst, left, out =>
    match opst with
    | [] => ([], left, out)
    | top :: rest =>
      if p ≤ opPriority top ∧ ¬ isContainerB top then
        match left with
        | ltop :: lrest =>
          if opPriority top ≤ opPriority ltop ∧ ¬ isContainerB ltop then
            drainHigher p iters (top :: rest) lrest (out ++ [Item.op ltop])
          else drainHigher p iters rest (ltop :: lrest) (out ++ [Item.op top])
        | [] => drainHigher p iters rest [] (out ++ [Item.op top])
      else (opst, left, out)

/-- The second `while` of the else-branch of `insert_operator`: pop
left-operators of priority at least the incoming operator's, skipping
nothing, until a container or a lower-priority left-operator surfaces. -/
def drainLeftGE (p : ℕ) : List Op → List Item → List Op × List Item
  | [], out => ([], out)
  | ltop :: lrest, out =>
    if p ≤ opPriority ltop ∧ ¬ isContainerB ltop then
      drainLeftGE p lrest (out ++ [Item.op ltop])
    else (ltop :: lrest, out)

/-- `opened_containers[op] += 1` with default 0. -/
def bumpOpened : List (Op × ℕ) → Op → List (Op × ℕ)
  | [], o => [(o, 1)]
  | (k, n) :: rest, o =>
    if k = o then (k, n + 1) :: rest else (k, n) :: bumpOpened rest o

/-- `opened_containers[op] -= 1` followed by deletion when the count
reaches 0; `none` models the `KeyError` on a missing key. -/
def decOpened : List (Op × ℕ) → Op → Option (List (Op × ℕ))
  | [], _ => none
  | (k, n) :: rest, o =>
    if k = o then
      if n - 1 = 0 then some rest else some ((k, n - 1) :: rest)
    else (decOpened rest o).map ((k, n) :: ·)

/-- `insert_operator`: an operand-after unary operator goes to the
left-operator stack unchecked; otherwise the operator is pushed directly
when it strictly outranks (or sits atop a container on) both stacks, and
otherwise both drain loops run first.  A container additionally bumps its
open count and lands on the left-operator stack too. -/
def insertOperator (o : Op) (st : FmtSt) : FmtSt :=
  if opKind o = OpKind.unaryAfter then { st with leftOps := o :: st.leftOps }
  else
    let base :=
      if (match st.opStack with
          | [] => true
          | top :: _ => opPriority top < opPriority o || isContainerB top)
        && (match st.leftOps with
          | [] => true
          | ltop :: _ => opPriority ltop < opPriority o || isContainerB ltop) then
        { st with opStack := o :: st.opStack }
      else
        let r1 := drainHigher (opPriority o)
          (st.opStack.length + st.leftOps.length) st.opStack st.leftOps st.out
        let r2 := drainLeftGE (opPriority o) r1.2.1 r1.2.2
        { opStack := o :: r1.1, leftOps := r2.1, out := r2.2,
          opened := st.opened }
    if opKind o = OpKind.container then
      { base with opened := bumpOpened base.opened o,
                  leftOps := o :: base.leftOps }
    else base

/-- The first `while` of `free_until_start_of_container`: until the
regular stack's top is a container, emit the left-operator top first when
it dominates, then always emit the regular top.  `none` models the
`IndexError` of `top()` on an empty stack. -/
def freeLoop1 : List Op → List Op → List Item →
    Option (List Op × List Op × List Item)
  | [], _, _ => none
  | top :: rest, left, out =>
    if isContainerB top then some (top :: rest, left, out)
    else
      match left with
      | [] => none
      | ltop :: lrest =>
        if opPriority top ≤ opPriority ltop ∧ ¬ isContainerB ltop then
          freeLoop1 rest lrest (out ++ [Item.op ltop, Item.op top])
        else freeLoop1 rest (ltop :: lrest) (out ++ [Item.op top])

/-- The second `while` of `free_until_start_of_container`: pop
left-operators until a container surfaces. -/
def freeLoop2 : List Op → List Item → Option (List Op × List Item)
  | [], _ => none
  | ltop :: lrest, out =>
    if isContainerB ltop then some (ltop :: lrest, out)
    else freeLoop2 lrest (out ++ [Item.op ltop])

/-- The end-symbol branch of `format_expression`:
`free_until_start_of_container`, then pop and emit the container from the
regular stack, decrement its open count, and pop it from the
left-operator stack. -/
def closeContainer (st : FmtSt) : Option FmtSt := do
  let (opst1, left1, out1) ← freeLoop1 st.opStack st.leftOps st.out
  let (left2, out2) ← freeLoop2 left1 out1
  match opst1 with
  | [] => none
  | cur :: rest =>
    match left2 with
    | [] => none
    | _ :: lrest => do
      let opened1 ← decOpened st.opened cur
      some { opStack := rest, leftOps := lrest,
             out := out2 ++ [Item.op cur], opened := opened1 }

/-- The token loop of `format_expression`; `rest` is the suffix of `expr`
from index `i` (the loop reads `expression[i]`). -/
def formatLoop (expr : List String) : List String → ℕ → FmtSt →
    Except PyExn FmtSt
  | [], _, st => .ok st
  | symbol :: rest, i, st =>
    if isFloatStr symbol then
      match pyFloat symbol with
      | some q => formatLoop expr rest (i + 1) { st with out := st.out ++ [Item.num q] }
      | none =>
        .error (.formattingError
          ("Error: Failed to cast " ++ symbol ++ " to a floating point value") i)
    else if symbol ∈ st.opened.map (fun p => opEndSymbol p.1) then
      match closeContainer st with
      | some st1 => formatLoop expr rest (i + 1) st1
      | none => .error .indexError
    else if symbol ∈ omegaSymbols then
      match getOperatorAt omegaDict expr i with
      | some (.one o) =>
        match (if opKind o = OpKind.container then Except.ok ()
               else checkPosition o expr i) with
        | .ok _ => formatLoop expr rest (i + 1) (insertOperator o st)
        | .error e => .error e
      | some (.many _) => .error .attributeError
      | none => .error .valueError
    else
      .error (.formattingError
        ("Error: Invalid expression, did not recognize symbol " ++ symbol) i)

/-- The left-operator drain inside the final while of `format_expression`
(no container exclusion there). -/
def drainLeftEnd (p : ℕ) : List Op → List Item → List Op × List Item
  | [], out => ([], out)
  | ltop :: lrest, out =>
    if p ≤ opPriority ltop then drainLeftEnd p lrest (out ++ [Item.op ltop])
    else (ltop :: lrest, out)

/-- The final stack drain of `format_expression`: pop each remaining
regular operator, first emitting left-operators of at least its priority;
a surfacing container was never closed and raises. -/
def finalDrain : List Op → List Op → List Item →
    Except PyExn (List Op × List Item)
  | [], left, out => .ok (left, out)
  | cur :: rest, left, out =>
    let r := drainLeftEnd (opPriority cur) left out
    if isContainerB cur then
      .error (.formattingError
        ("Error: Unclosed container " ++ opSymbol cur ++ ", missing "
          ++ opEndSymbol cur) (-1))
    else finalDrain rest r.1 (r.2 ++ [Item.op cur])

/-- `format_expression`: run the token loop from fresh stacks, drain the
regular stack, then flush the remaining left-operators in order. -/
def formatExpression (expr : List String) : Except PyExn (List Item) := do
  let st ← formatLoop expr expr 0 ⟨[], [], [], []⟩
  let (left1, out1) ← finalDrain st.opStack st.leftOps st.out
  pure (out1 ++ left1.map Item.op)

/-! ## Operator semantics (`operate` methods, `operator.py`) -/

/-- The factorial loop of `Factorial.operate`: `res = 1.0; for i in
range(1, round(num) + 1): res *= i`. -/
def pyFactLoop (n : ℕ) : ℚ :=
  (List.range' 1 n).foldl (fun (res : ℚ) (i : ℕ) => qmul res (i : ℚ)) 1

/-- Budget of the digit-sum precision guard.  Modelled from the spec: the
spec fixes no numeric value ("a fixed precision budget"), so a
representative constant is used; no claim depends on the value. -/
def sumDigitsBudget : ℕ := 15

/-- The significant decimal digits of a nonnegative rational that is
representable within the precision budget: scale by `10 ^ budget`, demand
integrality, and strip trailing zeros.  `none` when not representable. -/
def stripTrailingZeros (n : ℕ) : ℕ :=
  if h : n ≠ 0 ∧ n % 10 = 0 then
    have : n / 10 < n := Nat.div_lt_self (Nat.pos_of_ne_zero h.1) (by omega)
    stripTrailingZeros (n / 10)
  else n

/-- Decimal digit list (least significant first) of `q ≥ 0` within the
budget, trailing zeros removed; `none` when `q` needs more fractional
digits than the budget allows. -/
def sigDigitsOf (q : ℚ) : Option (List ℕ) :=
  let scaled := qmul q (qpowNat 10 sumDigitsBudget)
  if scaled.den = 1 then some (Nat.digits 10 (stripTrailingZeros scaled.num.toNat))
  else none

/-- Modelled from the spec: the `SumDigits` operator class is missing from
`operator.py` even though `OmegaDefinedOperators.__init__` instantiates
`operator.SumDigits()` and the tests exercise `ops["#"]`.  Per the spec,
digit-sum is postfix-unary with priority 6 and "errors on negative input
or more significant digits than a fixed precision budget allows";
otherwise it returns the sum of the decimal digits of its operand
(ignoring the decimal point). -/
def sumDigitsOperate (num : ℚ) : Except PyExn ℚ :=
  if num < 0 then
    .error (.calculationError "Cannot calculate the digit sum of a negative number")
  else
    match sigDigitsOf num with
    | none => .error (.calculationError "Too many significant digits")
    | some ds =>
      if sumDigitsBudget < ds.length then
        .error (.calculationError "Too many significant digits")
      else .ok (ds.sum : ℚ)

/-- `operate` of the binary operator classes.  `Division` and the others
are verbatim; `Power.operate` is `return num1 ** num2` with no checks of
its own: a zero base with a negative integer exponent is Python's
`ZeroDivisionError`, and a fractional exponent yields an irrational (or
complex) float, outside this rational embedding (`nonRational`). -/
def binOperate (o : Op) (num1 num2 : ℚ) : Except PyExn ℚ :=
  match o with
  | .addition => .ok (qadd num1 num2)
  | .subtraction => .ok (qsub num1 num2)
  | .multiplication => .ok (qmul num1 num2)
  | .division =>
    if num2 = 0 then .error (.calculationError "Cannot divide by zero")
    else .ok (qdiv num1 num2)
  | .power =>
    if num2.den = 1 then
      if num1 = 0 ∧ num2.num < 0 then .error .zeroDivisionError
      else .ok (qzpow num1 num2.num)
    else .error .nonRational
  | .modulo =>
    if num2 = 0 then .error .zeroDivisionError
    else .ok (qsub num1 (qmul num2 ((qdiv num1 num2).floor : ℚ)))
  | .maxOp => .ok (if num2 < num1 then num1 else num2)
  | .minOp => .ok (if num1 < num2 then num1 else num2)
  | .average => .ok (qdiv (qadd num1 num2) 2)
  | _ => .error .attributeError

/-- `operate` of the unary and container operator classes. `Negation`,
`Minus` and `NegativeSign` negate; `Factorial` checks sign and
integrality and then runs its product loop (`round` of an integral float
is its integer value); `Brackets` is the identity. -/
def unOperate (o : Op) (num : ℚ) : Except PyExn ℚ :=
  match o with
  | .negation => .ok (-num)
  | .minus => .ok (-num)
  | .negativeSign => .ok (-num)
  | .factorial =>
    if num < 0 then
      .error (.calculationError "Cannot calculate the factorial of a negative number")
    else if num.den ≠ 1 then
      .error (.calculationError "Can only calculate the factorial of a whole number")
    else .ok (pyFactLoop num.num.toNat)
  | .brackets => .ok num
  | .sumDigits => sumDigitsOperate num
  | _ => .error .attributeError

/-! ## Solver (`PostfixSolver.solve`, `solver.py`)

This generation of `solve` returns a `(success, value)` tuple and prints
its error messages instead of raising `SolvingError`; a `CalculationError`
from an `operate` call is caught and also turned into `(False, 0)`. -/

/-- Python's banker's rounding of a rational to an integer. -/
def pyRoundInt (q : ℚ) : ℤ :=
  let f := q.floor
  let r := qsub q (f : ℚ)
  if r < Rat.divInt 1 2 then f
  else if Rat.divInt 1 2 < r then f + 1
  else if f % 2 = 0 then f else f + 1

/-- `round(result, ROUNDING_DIGITS)` with `ROUNDING_DIGITS = 12`
(decimal-digit rounding of the exact rational value). -/
def pyRound12 (q : ℚ) : ℚ :=
  qdiv (pyRoundInt (qmul q (qpowNat 10 12)) : ℚ) (qpowNat 10 12)

/-- The item loop of `solve` with the operand stack threaded through; on
exhaustion the function applies the too-many / empty checks and rounds
the single remaining value.  `.ok (false, 0)` is the printed-and-returned
failure tuple; `.error` is an exception escaping `solve` (none of the
`SolvingError` raises of later generations exist here). -/
def solveLoop : List Item → List ℚ → Except PyExn (Bool × ℚ)
  | [], st =>
    match st with
    | [] => .ok (false, 0)
    | [x] => .ok (true, pyRound12 x)
    | _ => .ok (false, 0)
  | item :: rest, st =>
    match item with
    | .num q => solveLoop rest (q :: st)
    | .op o =>
      match opKind o with
      | .binary =>
        match st with
        | num2 :: num1 :: stRest =>
          match binOperate o num1 num2 with
          | .ok r => solveLoop rest (r :: stRest)
          | .error (.calculationError _) => .ok (false, 0)
          | .error e => .error e
        | _ => .ok (false, 0)
      | _ =>
        match st with
        | num1 :: stRest =>
          match unOperate o num1 with
          | .ok r => solveLoop rest (r :: stRest)
          | .error (.calculationError _) => .ok (false, 0)
          | .error e => .error e
        | [] => .ok (false, 0)
    | .other _ => .ok (false, 0)

/-- `PostfixSolver.solve`. -/
def solve (items : List Item) : Except PyExn (Bool × ℚ) := solveLoop items []

/-- End-to-end evaluation: tokenize, format, solve (the body of the
`Calculator.run` success path for one input). -/
def calculate (s : String) : Except PyExn (Bool × ℚ) := do
  let items ← formatExpression (extractSymbols s)
  solve items

/-! ## Rule-level companions (stated from the amended claim text)

These definitions restate the overload-resolution policy the way the
(amended) specification words it, for comparison against the
dictionary-driven `getOperatorAt`. -/

/-- The amended resolution rule for a non-initial `'-'`, as a function of
the previous position's resolution: a non-operator previous token gives
binary subtraction; a container opener or the low-priority sign gives the
low-priority sign; a binary operator or a unary operator whose operand
follows it gives the high-priority sign; anything else gives binary
subtraction. -/
def minusRulePrev : Option Entry → Op
  | none => Op.subtraction
  | some (Entry.one prev) =>
    if opKind prev = OpKind.container ∨ prev = Op.minus then Op.minus
    else if opKind prev = OpKind.binary ∨ opKind prev = OpKind.unaryAfter then
      Op.negativeSign
    else Op.subtraction
  | some (Entry.many _) => Op.subtraction

/-- The full amended resolution rule for `'-'`: position 0 gives the
low-priority sign, otherwise `minusRulePrev` of the previous position's
resolution. -/
def minusRuleAmended (expr : List String) (pos : ℕ) : Op :=
  if pos = 0 then Op.minus
  else minusRulePrev (getOperatorAt omegaDict expr (pos - 1))

set_option maxRecDepth 100000

/-! ## Bridge lemmas for the reducible rational operations -/

theorem qadd_eq (a b : ℚ) : qadd a b = a + b := by
  rw [qadd]
  conv_rhs => rw [← Rat.num_divInt_den a, ← Rat.num_divInt_den b]
  rw [Rat.divInt_add_divInt _ _ (by exact_mod_cast a.den_nz)
    (by exact_mod_cast b.den_nz)]

theorem qsub_eq (a b : ℚ) : qsub a b = a - b := by
  rw [qsub]
  conv_rhs => rw [← Rat.num_divInt_den a, ← Rat.num_divInt_den b]
  rw [Rat.divInt_sub_divInt _ _ (by exact_mod_cast a.den_nz)
    (by exact_mod_cast b.den_nz)]

theorem qmul_eq (a b : ℚ) : qmul a b = a * b := by
  rw [qmul]
  conv_rhs => rw [← Rat.num_divInt_den a, ← Rat.num_divInt_den b,
    Rat.divInt_mul_divInt']

theorem qinv_eq (a : ℚ) : qinv a = a⁻¹ := (Rat.inv_def' a).symm

theorem qdiv_eq (a b : ℚ) : qdiv a b = a / b := by
  rw [qdiv, qmul_eq, qinv_eq, div_eq_mul_inv]

theorem qpowNat_eq (a : ℚ) (n : ℕ) : qpowNat a n = a ^ n := by
  induction n with
  | zero => rw [qpowNat, pow_zero]
  | succ n ih => rw [qpowNat, qmul_eq, ih, pow_succ]

theorem qzpow_eq (a : ℚ) (e : ℤ) : qzpow a e = a ^ e := by
  rw [qzpow]
  split
  next h =>
    rw [qpowNat_eq, ← zpow_natCast, Int.toNat_of_nonneg h]
  next h =>
    rw [qinv_eq, qpowNat_eq, ← zpow_natCast,
      Int.toNat_of_nonneg (by omega), ← zpow_neg, neg_neg]

/-! ## Claim theorems -/

/-- C1: the claim states that `solve` signals failure only by raising
`SolvingError` (empty-stack pop, too many operands, empty expression,
unrecognised item) and propagates operator `CalculationError`s; the
solver in `solver.py` instead prints a message and returns the tuple
`(False, 0)` in every one of those situations — the claim describes the
later generation that the repository's own tests (`test_solver.py`)
assert, so the shipped code is the bug.  Each conjunct evaluates `solve`
at one failing input from the claim: missing operand for a binary
operator, too many operands, empty expression, a `CalculationError`
(divide by zero) swallowed instead of propagated, and an unrecognised
item. -/
theorem solve_reports_failure_with_flag_tuple :
    solve [Item.num 1, Item.op Op.addition] = .ok (false, 0) ∧
    solve [Item.num 1, Item.num 2] = .ok (false, 0) ∧
    solve ([] : List Item) = .ok (false, 0) ∧
    solve [Item.num 1, Item.num 0, Item.op Op.division] = .ok (false, 0) ∧
    solve [Item.num 1, Item.num 2, Item.other "a"] = .ok (false, 0) := by
  refine ⟨rfl, rfl, rfl, ?_, rfl⟩
  decide

/-- C3: `Power.operate` is `return num1 ** num2` with no domain checks,
although `test_solver.py` and `test_calculator.py` expect
`CalculationError` for a zero base with non-positive exponent, a negative
base with fractional exponent, and overflow.  At the failing input
`0.0 ** 0.0` the code returns `1.0`; `0.0 ** -1.0` raises Python's
`ZeroDivisionError` (not `CalculationError`); and for every natural
exponent the result is returned unchecked, so no overflow guard exists. -/
theorem power_operate_has_no_domain_checks :
    binOperate Op.power 0 0 = .ok 1 ∧
    binOperate Op.power 0 (-1) = .error .zeroDivisionError ∧
    ∀ (a : ℚ) (e : ℕ), binOperate Op.power a (e : ℚ) = .ok (a ^ (e : ℤ)) := by
  refine ⟨by decide, by decide, ?_⟩
  intro a e
  have h2 : ¬ (a = 0 ∧ (e : ℤ) < 0) := by
    rintro ⟨-, h⟩
    omega
  simp [binOperate, Rat.den_natCast, Rat.num_natCast, h2, qzpow_eq,
    zpow_natCast]

/-- C4 counterexample: the claim says `3 + -4 ^ 2` evaluates to `-13`,
grouping as `3 + (-(4^2))`.  End to end the code returns `19`: the
high-priority sign is drained from the left-operator stack when `^` is
inserted, so it binds to `4` alone and the grouping is `3 + ((-4)^2)`. -/
theorem eval_3_plus_neg4_pow_2_is_19_not_neg13 :
    calculate "3 + -4 ^ 2" = .ok (true, 19) ∧ (19 : ℚ) ≠ -13 := by
  constructor
  · decide
  · decide

/-- C4 amended: `3 + -4 ^ 2` tokenizes to six tokens, formats to the
postfix sequence `3 4 sign 2 ^ +` (the sign applied to `4` before the
power), and evaluates to `19 = 3 + ((-4)^2)` — not `-13 = 3 + (-(4^2))`
and not `-1 = (3-4)^2`. -/
theorem eval_3_plus_neg4_pow_2_groups_sign_with_4 :
    extractSymbols "3 + -4 ^ 2" = ["3", "+", "-", "4", "^", "2"] ∧
    formatExpression ["3", "+", "-", "4", "^", "2"] =
      .ok [Item.num 3, Item.num 4, Item.op Op.negativeSign, Item.num 2,
           Item.op Op.power, Item.op Op.addition] ∧
    calculate "3 + -4 ^ 2" = .ok (true, 3 + (-4 : ℚ) ^ (2 : ℕ)) := by
  refine ⟨by decide, by decide, ?_⟩
  have h : (3 + (-4 : ℚ) ^ (2 : ℕ)) = 19 := by norm_num
  rw [h]
  decide

/-- C6 counterexample: the claim gives modulo priority 4, max/min/average
priority 5 and negation/factorial priority 6; in `operator.py` the modulo
operator's priority is 5, not 4. -/
theorem modulo_priority_is_5_not_4 :
    dictLookup omegaDict "%" = some (Entry.one Op.modulo) ∧
    opPriority Op.modulo ≠ 4 := by decide

/-- C6 amended: in the catalog, modulo has priority 5, max, min and
average have priority 6, and negation and factorial have priority 7 (one
more than each value the claim states). -/
theorem catalog_priorities_modulo5_maxminavg6_negfact7 :
    dictLookup omegaDict "%" = some (Entry.one Op.modulo) ∧
    dictLookup omegaDict "$" = some (Entry.one Op.maxOp) ∧
    dictLookup omegaDict "&" = some (Entry.one Op.minOp) ∧
    dictLookup omegaDict "@" = some (Entry.one Op.average) ∧
    dictLookup omegaDict "~" = some (Entry.one Op.negation) ∧
    dictLookup omegaDict "!" = some (Entry.one Op.factorial) ∧
    opPriority Op.modulo = 5 ∧
    opPriority Op.maxOp = 6 ∧ opPriority Op.minOp = 6 ∧
    opPriority Op.average = 6 ∧
    opPriority Op.negation = 7 ∧ opPriority Op.factorial = 7 := by decide

/-- C7: chained power groups left-to-right — `2^4^7` formats to
`2 4 ^ 7 ^` and evaluates to `(2^4)^7 = 268435456` — and brackets
override the grouping: `2^(3^3) = 2^27 = 134217728`. -/
theorem power_chains_left_to_right_and_brackets_override :
    formatExpression ["2", "^", "4", "^", "7"] =
      .ok [Item.num 2, Item.num 4, Item.op Op.power, Item.num 7,
           Item.op Op.power] ∧
    calculate "2^4^7" = .ok (true, 268435456) ∧
    calculate "2^(3^3)" = .ok (true, 134217728) := by
  refine ⟨by decide, by decide, by decide⟩

/-! ## Helper lemmas on the catalog and overload resolution -/

theorem getOperatorAt_one (d : OpDict) (expr : List String) (pos : ℕ)
    (o : Op) (h : dictLookup d (expr.getD pos "") = some (Entry.one o)) :
    getOperatorAt d expr pos = some (Entry.one o) := by
  cases pos with
  | zero => rw [getOperatorAt, h]
  | succ p => rw [getOperatorAt, h]

theorem resolvePrev_omega (r : Option Entry) :
    resolvePrev omegaDict r = some (minusRulePrev r) := by
  rcases r with _ | e
  · rfl
  · rcases e with o | l
    · cases o <;> rfl
    · rfl

theorem getOperatorAt_minus_eq (expr : List String) (pos : ℕ)
    (h : expr.getD pos "" = "-") :
    getOperatorAt omegaDict expr pos =
      some (Entry.one (if pos = 0 then Op.minus
        else minusRulePrev (getOperatorAt omegaDict expr (pos - 1)))) := by
  cases pos with
  | zero =>
    simp only [getOperatorAt, h]
    rfl
  | succ p =>
    simp only [getOperatorAt, h]
    rw [show dictLookup omegaDict "-"
      = some (Entry.many [Op.subtraction, Op.minus, Op.negativeSign]) from rfl]
    simp only [if_pos rfl, resolvePrev_omega, Option.map_some]
    rfl

theorem minusRulePrev_cases (r : Option Entry) :
    minusRulePrev r = Op.subtraction ∨ minusRulePrev r = Op.minus ∨
      minusRulePrev r = Op.negativeSign := by
  rcases r with _ | e
  · left; rfl
  · rcases e with o | l
    · cases o <;> decide
    · left; rfl

/-- C5 counterexample: rule (1) of the claim says a `'-'` whose previous
token is not a resolvable operator resolves to the low-priority unary
sign; in `resolve_overloads` the caught `ValueError` branch returns
binary subtraction instead, as in `3 - 2`. -/
theorem minus_after_number_is_subtraction_not_sign :
    getOperatorAt omegaDict ["3", "-", "2"] 1 =
      some (Entry.one Op.subtraction) ∧
    Op.subtraction ≠ Op.minus := by decide

/-- C5 amended: resolution of `'-'` follows the amended rules — position 0
gives the low-priority sign; a previous token that is not a resolvable
operator gives binary subtraction; a previous container opener or
low-priority sign gives the low-priority sign; a previous binary operator
or operand-after unary operator gives the high-priority sign; anything
else gives binary subtraction (`minusRuleAmended`). -/
theorem minus_overloads_resolve_by_amended_rules (expr : List String)
    (pos : ℕ) (h : expr.getD pos "" = "-") :
    getOperatorAt omegaDict expr pos =
      some (Entry.one (minusRuleAmended expr pos)) := by
  rw [getOperatorAt_minus_eq expr pos h, minusRuleAmended]

theorem minus_overloads_resolve_by_amended_rules_witness :
    (["-", "4"].getD 0 "" = "-") ∧
    getOperatorAt omegaDict ["-", "4"] 0 =
      some (Entry.one (minusRuleAmended ["-", "4"] 0)) :=
  ⟨by decide, minus_overloads_resolve_by_amended_rules ["-", "4"] 0 (by decide)⟩

/-- C10: `_op_dict` is a class attribute shared by every
`BaseDefinedOperators` instance, so a second construction of
`OmegaDefinedOperators` folds `_add_op` over the already-populated
dictionary: after one construction `'+'` maps to the single `Addition`
operator (and `get_operator` returns it), after a second construction
`'+'` maps to a list of two duplicates and `get_operator` returns that
list rather than an `Operator` (`resolve_overloads`' default branch
returns the raw dictionary entry). -/
theorem op_dict_rebuild_breaks_single_operator_invariant :
    dictLookup (buildOmega []) "+" = some (Entry.one Op.addition) ∧
    getOperatorAt (buildOmega []) ["+"] 0 = some (Entry.one Op.addition) ∧
    dictLookup (buildOmega (buildOmega [])) "+" =
      some (Entry.many [Op.addition, Op.addition]) ∧
    getOperatorAt (buildOmega (buildOmega [])) ["+"] 0 =
      some (Entry.many [Op.addition, Op.addition]) := by decide

theorem pyFactLoop_eq_factorial (n : ℕ) :
    pyFactLoop n = (Nat.factorial n : ℚ) := by
  induction n with
  | zero => simp [pyFactLoop, Nat.factorial]
  | succ n ih =>
    rw [pyFactLoop, List.range'_concat, List.foldl_append,
      show (List.range' 1 n).foldl (fun (res : ℚ) (i : ℕ) => qmul res (i : ℚ)) 1
        = pyFactLoop n from rfl,
      List.foldl_cons, List.foldl_nil, ih, qmul_eq, Nat.factorial_succ]
    push_cast
    ring

/-- C9: the claim says factorial and power enforce a fixed
maximum-iteration/magnitude guard that raises `CalculationError` on
too-large inputs; no such guard exists.  `Factorial.operate` runs its
product loop for every nonnegative whole input, however large, and
returns the factorial, and `Power.operate` returns the power for every
natural exponent — neither ever raises `CalculationError` for large
inputs, although `test_calculator.py` expects `99999999!` and
`34956^23654` to raise it. -/
theorem factorial_and_power_have_no_iteration_cap :
    (∀ n : ℕ, unOperate Op.factorial (n : ℚ) = .ok (Nat.factorial n : ℚ)) ∧
    (∀ (a : ℚ) (e : ℕ), binOperate Op.power a (e : ℚ) = .ok (a ^ (e : ℤ))) := by
  constructor
  · intro n
    have h0 : ¬ ((n : ℚ) < 0) := not_lt.mpr (Nat.cast_nonneg n)
    simp [unOperate, h0, Rat.den_natCast, Rat.num_natCast,
      Int.toNat_natCast, pyFactLoop_eq_factorial]
  · intro a e
    have h2 : ¬ (a = 0 ∧ (e : ℤ) < 0) := by
      rintro ⟨-, h⟩
      omega
    simp [binOperate, Rat.den_natCast, Rat.num_natCast, h2, qzpow_eq]

/-- C2 (spec-modelled: the `SumDigits` class itself is absent from
`operator.py`; its instantiation in `OmegaDefinedOperators.__init__` and
the `ops["#"]` tests are the only traces, so its behaviour is modelled
from the spec): the catalog maps `'#'` to the digit-sum operator, a
postfix-unary operator of priority 6, whose application raises a
`CalculationError` on negative input and whenever the input has more
significant digits than the fixed precision budget allows. -/
theorem sum_digits_postfix_priority6_and_domain_errors :
    dictLookup omegaDict "#" = some (Entry.one Op.sumDigits) ∧
    opPriority Op.sumDigits = 6 ∧
    opKind Op.sumDigits = OpKind.unaryBefore ∧
    (∀ q : ℚ, unOperate Op.sumDigits q = sumDigitsOperate q) ∧
    (∀ q : ℚ, q < 0 →
      sumDigitsOperate q = .error
        (.calculationError "Cannot calculate the digit sum of a negative number")) ∧
    (∀ q : ℚ, 0 ≤ q →
      (∀ ds, sigDigitsOf q = some ds → sumDigitsBudget < ds.length) →
      ∃ m, sumDigitsOperate q = .error (.calculationError m)) := by
  refine ⟨by decide, by decide, by decide, fun q => rfl, ?_, ?_⟩
  · intro q hq
    rw [sumDigitsOperate, if_pos hq]
  · intro q hq hds
    rw [sumDigitsOperate, if_neg (not_lt.mpr hq)]
    cases hs : sigDigitsOf q with
    | none => exact ⟨_, rfl⟩
    | some ds =>
      exact ⟨"Too many significant digits", by simp [hds ds hs]⟩

theorem sum_digits_postfix_priority6_and_domain_errors_witness :
    ((-5 : ℚ) < 0 ∧
      sumDigitsOperate (-5) = .error
        (.calculationError "Cannot calculate the digit sum of a negative number")) ∧
    ((0 : ℚ) ≤ Rat.divInt 1 3 ∧
      ∃ m, sumDigitsOperate (Rat.divInt 1 3) =
        .error (.calculationError m)) := by
  constructor
  · exact ⟨by decide,
      sum_digits_postfix_priority6_and_domain_errors.2.2.2.2.1 (-5) (by decide)⟩
  · refine ⟨by decide,
      sum_digits_postfix_priority6_and_domain_errors.2.2.2.2.2 (Rat.divInt 1 3)
        (by decide) ?_⟩
    intro ds hds
    rw [show sigDigitsOf (Rat.divInt 1 3) = none from by decide] at hds
    exact absurd hds (by simp)

/-! ## Helper lemmas for the unary position scans -/

theorem getD_append_head (A l : List String) :
    (A ++ l).getD A.length "" = l.getD 0 "" := by
  rw [List.getD_append_right _ _ _ _ (le_refl _), Nat.sub_self]

theorem isFloatStr_ne_rparen {t : String} (h : isFloatStr t = true) :
    t ≠ ")" := by
  intro he
  subst he
  exact absurd h (by decide)

theorem isContainerB_of_minus_rule (expr : List String) (pos : ℕ) :
    isContainerB (if pos = 0 then Op.minus
      else minusRulePrev (getOperatorAt omegaDict expr (pos - 1))) = false := by
  split
  · rfl
  · rcases minusRulePrev_cases (getOperatorAt omegaDict expr (pos - 1))
      with h | h | h <;> rw [h] <;> rfl

theorem resolvesToContainer_of_lparen (expr : List String) (i : ℕ)
    (h : expr.getD i "" = "(") : resolvesToContainer expr i = true := by
  have hop : getOperatorAt omegaDict expr i = some (Entry.one Op.brackets) := by
    apply getOperatorAt_one
    rw [h]
    rfl
  rw [resolvesToContainer, hop, isOperator, h]
  rfl

theorem resolvesToContainer_of_minus (expr : List String) (i : ℕ)
    (h : expr.getD i "" = "-") : resolvesToContainer expr i = false := by
  simp only [resolvesToContainer, getOperatorAt_minus_eq _ _ h,
    isContainerB_of_minus_rule, Bool.and_false]

theorem minusScan_ok (sym : String) (sp : ℕ) (t : String)
    (ht : isFloatStr t = true ∨ t = "(") :
    ∀ (k : ℕ) (A rest : List String),
      minusScan sym sp (A ++ (List.replicate k "-" ++ t :: rest))
        (k + rest.length + 1) A.length = .ok () := by
  intro k
  induction k with
  | zero =>
    intro A rest
    have htok : (A ++ (List.replicate 0 "-" ++ t :: rest)).getD A.length ""
        = t := by
      rw [List.replicate, List.nil_append, getD_append_head,
        List.getD_cons_zero]
    rw [Nat.zero_add, minusScan, htok]
    rcases ht with hf | hp
    · rw [hf, Bool.true_or, if_pos rfl]
    · rw [resolvesToContainer_of_lparen _ _ (hp ▸ htok), Bool.or_true,
        if_pos rfl]
  | succ k ih =>
    intro A rest
    have htok : (A ++ (List.replicate (k + 1) "-" ++ t :: rest)).getD
        A.length "" = "-" := by
      rw [List.replicate_succ, List.cons_append, getD_append_head,
        List.getD_cons_zero]
    rw [minusScan, htok, show isFloatStr "-" = false from rfl,
      resolvesToContainer_of_minus _ _ htok, if_neg (by decide),
      if_neg (by decide),
      show k + 1 + rest.length = k + rest.length + 1 from by omega]
    have h2 := ih (A ++ ["-"]) rest
    simpa [List.append_assoc, List.replicate_succ] using h2

theorem negScan_ok (sym : String) (sp : ℕ) (t : String)
    (ht : isFloatStr t = true) :
    ∀ (k : ℕ) (A rest : List String),
      negScan sym sp (A ++ (List.replicate k "-" ++ t :: rest))
        (k + rest.length + 1) A.length = .ok () := by
  intro k
  induction k with
  | zero =>
    intro A rest
    have htok : (A ++ (List.replicate 0 "-" ++ t :: rest)).getD A.length ""
        = t := by
      rw [List.replicate, List.nil_append, getD_append_head,
        List.getD_cons_zero]
    rw [Nat.zero_add, negScan, htok, ht, if_pos rfl]
  | succ k ih =>
    intro A rest
    have htok : (A ++ (List.replicate (k + 1) "-" ++ t :: rest)).getD
        A.length "" = "-" := by
      rw [List.replicate_succ, List.cons_append, getD_append_head,
        List.getD_cons_zero]
    rw [negScan, htok, show isFloatStr "-" = false from rfl,
      if_neg (by decide), if_neg (by decide),
      show k + 1 + rest.length = k + rest.length + 1 from by omega]
    have h2 := ih (A ++ ["-"]) rest
    simpa [List.append_assoc, List.replicate_succ] using h2

theorem chain_shape_eq (pre : List String) (s : String) (l : List String) :
    pre ++ s :: l = (pre ++ [s]) ++ l := by
  rw [List.append_assoc, List.singleton_append]

theorem chain_length (pre rest : List String) (s t : String) (k : ℕ) :
    (pre ++ s :: (List.replicate k "-" ++ t :: rest)).length
      = pre.length + 1 + k + (rest.length + 1) := by
  simp [List.length_append, List.length_replicate]
  omega

theorem chain_head_not_end (rest : List String) (t : String) (k : ℕ)
    (ht : isFloatStr t = true ∨ t = "(") :
    (List.replicate k "-" ++ t :: rest).getD 0 "" ∉ omegaEndSymbols := by
  cases k with
  | zero =>
    rw [List.replicate, List.nil_append, List.getD_cons_zero]
    rcases ht with hf | hp
    · simp only [show omegaEndSymbols = [")"] from rfl, List.mem_singleton]
      exact isFloatStr_ne_rparen hf
    · subst hp
      decide
  | succ k =>
    rw [List.replicate_succ, List.cons_append, List.getD_cons_zero]
    decide

theorem baseUnaryAfterCheck_ok (sym s t : String) (pre rest : List String)
    (k : ℕ) (ht : isFloatStr t = true ∨ t = "(") :
    baseUnaryAfterCheck sym (pre ++ s :: (List.replicate k "-" ++ t :: rest))
      pre.length = .ok () := by
  have hlen := chain_length pre rest s t k
  have hgd : (pre ++ s :: (List.replicate k "-" ++ t :: rest)).getD
      (pre.length + 1) "" = (List.replicate k "-" ++ t :: rest).getD 0 "" := by
    rw [chain_shape_eq, show pre.length + 1 = (pre ++ [s]).length from by simp,
      getD_append_head]
  rw [baseUnaryAfterCheck, if_neg (by rw [hlen]; omega), hgd,
    if_neg (chain_head_not_end rest t k ht)]

/-- C8 counterexample: the claim says every operand-after unary operator
accepts a scan ending at a numeric token **or a container opener**, and
that `'~'` directly followed by `'('` is legal; `Negation.check_position`
only accepts numeric tokens after the sign chain, so `~(3)` raises a
`FormattingError` both from the check itself and end to end. -/
theorem negation_cannot_precede_bracket :
    checkPosition Op.negation ["~", "(", "3", ")"] 0 =
      .error (.formattingError "Error: ~ cannot come before (" 1) ∧
    formatExpression ["~", "(", "3", ")"] =
      .error (.formattingError "Error: ~ cannot come before (" 1) := by decide

/-- C8 amended: for the two sign operators (`Minus`, `NegativeSign`) a
placement followed by zero or more `'-'` tokens and then a numeric token
or the container opener `'('` passes `check_position`; for `Negation`
(`'~'`) the same holds only with a numeric token (a container opener is
rejected, see the counterexample). -/
theorem sign_chain_scan_accepts_number_or_bracket :
    (∀ (o : Op), o = Op.minus ∨ o = Op.negativeSign →
      ∀ (pre rest : List String) (s t : String) (k : ℕ),
        isFloatStr t = true ∨ t = "(" →
        checkPosition o (pre ++ s :: (List.replicate k "-" ++ t :: rest))
          pre.length = .ok ()) ∧
    (∀ (pre rest : List String) (s t : String) (k : ℕ),
      isFloatStr t = true →
      checkPosition Op.negation (pre ++ s :: (List.replicate k "-" ++ t :: rest))
        pre.length = .ok ()) := by
  have hfuel : ∀ (pre rest : List String) (s t : String) (k : ℕ),
      ((pre ++ [s]) ++ (List.replicate k "-" ++ t :: rest)).length
        - (pre.length + 1) = k + rest.length + 1 := by
    intro pre rest s t k
    simp [List.length_append, List.length_replicate]
    omega
  have hscan : ∀ (sym : String) (pre rest : List String) (s t : String)
      (k : ℕ), (isFloatStr t = true ∨ t = "(") →
      minusScan sym pre.length
        (pre ++ s :: (List.replicate k "-" ++ t :: rest))
        ((pre ++ s :: (List.replicate k "-" ++ t :: rest)).length
          - (pre.length + 1))
        (pre.length + 1) = .ok () := by
    intro sym pre rest s t k ht
    have h1 := minusScan_ok sym pre.length t ht k (pre ++ [s]) rest
    rw [chain_shape_eq, hfuel,
      show pre.length + 1 = (pre ++ [s]).length from by simp]
    exact h1
  have hnscan : ∀ (sym : String) (pre rest : List String) (s t : String)
      (k : ℕ), isFloatStr t = true →
      negScan sym pre.length
        (pre ++ s :: (List.replicate k "-" ++ t :: rest))
        ((pre ++ s :: (List.replicate k "-" ++ t :: rest)).length
          - (pre.length + 1))
        (pre.length + 1) = .ok () := by
    intro sym pre rest s t k ht
    have h1 := negScan_ok sym pre.length t ht k (pre ++ [s]) rest
    rw [chain_shape_eq, hfuel,
      show pre.length + 1 = (pre ++ [s]).length from by simp]
    exact h1
  constructor
  · intro o ho pre rest s t k ht
    rcases ho with rfl | rfl
    · have hbase := baseUnaryAfterCheck_ok "-" s t pre rest k ht
      have hsc := hscan "-" pre rest s t k ht
      simp only [checkPosition, opKind, opSymbol]
      rw [hbase]
      simpa using hsc
    · have hbase := baseUnaryAfterCheck_ok "-" s t pre rest k ht
      have hsc := hscan "-" pre rest s t k ht
      simp only [checkPosition, opKind, opSymbol]
      rw [hbase]
      simpa using hsc
  · intro pre rest s t k ht
    have hbase := baseUnaryAfterCheck_ok "~" s t pre rest k (Or.inl ht)
    have hsc := hnscan "~" pre rest s t k ht
    simp only [checkPosition, opKind, opSymbol]
    rw [hbase]
    simpa using hsc

theorem sign_chain_scan_accepts_number_or_bracket_witness :
    ((Op.minus = Op.minus ∨ Op.minus = Op.negativeSign) ∧
      (isFloatStr "5" = true ∨ "5" = "(") ∧
      checkPosition Op.minus
        (["*"] ++ "-" :: (List.replicate 1 "-" ++ "5" :: []))
        ["*"].length = .ok ()) ∧
    (isFloatStr "7" = true ∧
      checkPosition Op.negation
        ([] ++ "~" :: (List.replicate 0 "-" ++ "7" :: []))
        ([] : List String).length = .ok ()) := by
  constructor
  · exact ⟨Or.inl rfl, Or.inl (by decide),
      sign_chain_scan_accepts_number_or_bracket.1 Op.minus (Or.inl rfl)
        ["*"] [] "-" "5" 1 (Or.inl (by decide))⟩
  · exact ⟨by decide,
      sign_chain_scan_accepts_number_or_bracket.2 [] [] "~" "7" 0 (by decide)⟩
